import Mathlib

/-!
# cpplearn, `2basics`: a shallow embedding of the three demonstration programs

`basics.cpp`, `storage_classes.cpp` and `type_qualifiers.cpp` are three
independent programs.  Each one is embedded in a namespace of its own, as a
function on a record holding the objects with static storage duration of the
program (globals and function-local statics) and the sequence of items inserted
into `std::cout`.

* `int` is the 32-bit two's-complement type of the usual targets; arithmetic
  that leaves the range wraps modulo `2^32` (`wrapInt`).
* `double` is IEEE-754 binary64; a finite value is carried by the rational
  number it denotes and every operation rounds to nearest, ties to even.
* console output is a list of `Out` items, one per `<<` insertion.
-/

/-! ## The `int` type -/

/-- The value `numeric_limits<int>::max()` of a 32-bit `int`. -/
def INT_MAX : Int := 2147483647

/-- The value `numeric_limits<int>::min()` of a 32-bit `int`. -/
def INT_MIN : Int := -2147483648

/-- Membership of a mathematical integer in the range of `int`. -/
def isInt (x : Int) : Prop := INT_MIN ≤ x ∧ x ≤ INT_MAX

instance (x : Int) : Decidable (isInt x) := by
  unfold isInt
  infer_instance

/-- Reduction of a mathematical integer to the `int` that a 32-bit
two's-complement machine stores for it.  The language leaves signed arithmetic
that leaves the range undefined; the model takes the wrap-around modulo `2^32`
of the usual targets, and on results within the range it is the identity. -/
def wrapInt (x : Int) : Int := (x + 2147483648) % 4294967296 - 2147483648

/-! ## Console output -/

/-- A finite or special value of the C++ type `double`; the sign of a zero is
not tracked. -/
inductive Double where
  | finite (q : ℚ)
  | posInf
  | negInf
  | nan
  deriving DecidableEq

/-- One item inserted into `std::cout` with `<<`. -/
inductive Out where
  | str (s : String)
  | int (n : Int)
  | dbl (d : Double)
  | chr (c : Char)
  | endl
  deriving DecidableEq

/-- Repetition of a call `n` times, earliest call innermost. -/
def callN {σ : Type} (f : σ → σ) : Nat → σ → σ
  | 0, s => s
  | n + 1, s => f (callN f n s)

/-- The items inserted into `cout` directly after the label `lbl`, in order of
appearance. -/
def printedAfter (lbl : String) : List Out → List Out
  | [] => []
  | Out.str s :: rest =>
      if s = lbl then rest.head?.toList ++ printedAfter lbl rest
      else printedAfter lbl rest
  | _ :: rest => printedAfter lbl rest

/-! ## The `double` type -/

/-- The value `numeric_limits<double>::max()` of binary64:
`(2^53 - 1) * 2^971`, the largest finite value. -/
def DBL_MAX : ℚ := (2 ^ 53 - 1) * 2 ^ 971

/-- The value `numeric_limits<double>::min()` of binary64: `2^(-1022)`, the
smallest positive normalised value. -/
def DBL_MIN : ℚ := 1 / 2 ^ 1022

/-- The value `numeric_limits<double>::lowest()` of binary64. -/
def DBL_LOWEST : ℚ := -DBL_MAX

/-- Rounding of a rational to the nearest integer, a tie going to the even
neighbour. -/
def roundHalfEven (q : ℚ) : Int :=
  let f := ⌊q⌋
  let r := q - f
  if r < 1 / 2 then f
  else if 1 / 2 < r then f + 1
  else if f % 2 = 0 then f
  else f + 1

/-- The spacing of binary64 values around `q`: `2^(e - 52)` for the binade
exponent `e` of `q`, which is never below the subnormal exponent `-1022`. -/
def ulpAt (q : ℚ) : ℚ := 2 ^ (max (Int.log 2 |q|) (-1022) - 52)

/-- Rounding of an exact result to binary64 (round to nearest, ties to even);
a result beyond the largest finite value becomes an infinity. -/
def roundDouble (q : ℚ) : Double :=
  if q = 0 then Double.finite 0
  else
    let r : ℚ := roundHalfEven (q / ulpAt q) * ulpAt q
    if DBL_MAX < r then Double.posInf
    else if r < -DBL_MAX then Double.negInf
    else Double.finite r

/-- The finite, representable values of `double`. -/
def isDouble (q : ℚ) : Prop := roundDouble q = Double.finite q

/-- The sum `a + b` of two `double` operands. -/
def Double.add : Double → Double → Double
  | Double.finite a, Double.finite b => roundDouble (a + b)
  | Double.nan, _ => Double.nan
  | _, Double.nan => Double.nan
  | Double.posInf, Double.negInf => Double.nan
  | Double.negInf, Double.posInf => Double.nan
  | Double.posInf, _ => Double.posInf
  | _, Double.posInf => Double.posInf
  | Double.negInf, _ => Double.negInf
  | _, Double.negInf => Double.negInf

/-- The `double` denoted by a decimal floating literal of exact value `q`. -/
def doubleLiteral (q : ℚ) : Double := roundDouble q

/-- The conversion `static_cast<double>(n)` of an `int`. -/
def staticCastDouble (n : Int) : Double := roundDouble n

/-- The conversion `(double)n` of an `int`: a C-style cast from `int` to
`double` is carried out as the `static_cast` between the two types. -/
def cStyleCastDouble (n : Int) : Double := staticCastDouble n

/-- The usual arithmetic conversion of an `int` operand whose other operand is
a `double`. -/
def promoteDouble (n : Int) : Double := staticCastDouble n

/-- Discarding of the fractional part of a rational (truncation toward zero). -/
def truncQ (q : ℚ) : Int := if 0 ≤ q then ⌊q⌋ else ⌈q⌉

/-- The implicit conversion of a `double` to `int`: the fractional part is
discarded.  When the truncated value does not fit in `int` the language leaves
the result undefined; the model returns `INT_MIN`, the value the x86-64
conversion instruction gives. -/
def doubleToInt : Double → Int
  | Double.finite q => if isInt (truncQ q) then truncQ q else INT_MIN
  | _ => INT_MIN

/-! ## `basics.cpp` -/

namespace Basics

/-- The objects with static storage duration of `basics.cpp` and its console
output. -/
structure State where
  /-- Global `int globalVar = 10;` -/
  globalVar : Int
  /-- Function-local `static int staticVar = 30;` of `demoVariableScope` -/
  staticVar : Int
  /-- Items written to `cout` so far -/
  out : List Out

/-- State at program start. -/
def init : State := { globalVar := 10, staticVar := 30, out := [] }

/-- Constant `const double PI = 3.14159;` -/
def PI : Double := doubleLiteral (314159 / 100000)

/-- Constant `#define MAX_SIZE 100` -/
def MAX_SIZE : Int := 100

/-- Insertion of a sequence of items into `cout`. -/
def cout (s : State) (items : List Out) : State := { s with out := s.out ++ items }

/-- The three lines `demoVariableScope` prints for given values of its two
variables. -/
def scopeReport (localVar staticVar : Int) : List Out :=
  [Out.str "Inside demoVariableScope():\n",
   Out.str "localVar = ", Out.int localVar, Out.str "\n",
   Out.str "staticVar (static) = ", Out.int staticVar, Out.str "\n"]

/-- Function `void demoVariableScope()`. -/
def demoVariableScope (s : State) : State :=
  let localVar : Int := 20
  let s := { s with staticVar := wrapInt (s.staticVar + 10) }
  cout s (scopeReport localVar s.staticVar)

/-- Local `int intVar = 5;` of `main`. -/
def intVar : Int := 5

/-- Local `double doubleVar = 3.14;` of `main`. -/
def doubleVar : Double := doubleLiteral (314 / 100)

/-- Initialiser `(double)intVar + doubleVar` of `result1` in `main`. -/
def result1 (intVar : Int) (doubleVar : Double) : Double :=
  (cStyleCastDouble intVar).add doubleVar

/-- Initialiser `static_cast<double>(intVar) + doubleVar` of `result2` in
`main`. -/
def result2 (intVar : Int) (doubleVar : Double) : Double :=
  (staticCastDouble intVar).add doubleVar

/-- Initialisation `int sum = intVar + doubleVar;` in `main`: the addition is
done in `double` and its result converted to `int`. -/
def sum (intVar : Int) (doubleVar : Double) : Int :=
  doubleToInt ((promoteDouble intVar).add doubleVar)

/-- Function `int main()`, for the value `userInput` that `cin >> userInput`
extracts when the extraction succeeds. -/
def main (userInput : Int) (s : State) : State :=
  let charVar : Char := 'A'
  let strVar : String := "Hello, C++!"
  let s := cout s [Out.str "Enter an integer: "]
  let s := cout s [Out.str "You entered: ", Out.int userInput, Out.endl]
  let s := cout s [Out.str "\nConstants and Literals:\n"]
  let s := cout s [Out.str "PI = ", Out.dbl PI, Out.endl]
  let s := cout s [Out.str "MAX_SIZE = ", Out.int MAX_SIZE, Out.endl]
  let s := cout s [Out.str "String literal: ", Out.str strVar, Out.endl]
  let s := cout s [Out.str "Character literal: ", Out.chr charVar, Out.endl]
  let s := cout s [Out.str "\nVariable Scope Demo:\n"]
  let s := demoVariableScope s
  let s := cout s [Out.str "\nNumeric Limits:\n"]
  let s := cout s [Out.str "Maximum value for int: ", Out.int INT_MAX, Out.endl]
  let s := cout s [Out.str "Minimum value for int: ", Out.int INT_MIN, Out.endl]
  let s := cout s [Out.str "Maximum value for double: ", Out.dbl (Double.finite DBL_MAX), Out.endl]
  let s := cout s [Out.str "Minimum value for double: ", Out.dbl (Double.finite DBL_MIN), Out.endl]
  let s := cout s [Out.str "\nGlobal Variable (globalVar) = ", Out.int s.globalVar, Out.endl]
  let s := cout s [Out.str "\nDemonstrating static variables:\n"]
  let s := demoVariableScope s
  let s := cout s [Out.str "\nDemonstrating Type Casting:\n"]
  let s := cout s [Out.str "Result of type casting int to double: ",
    Out.dbl (result1 intVar doubleVar), Out.endl]
  let s := cout s [Out.str "Result of type casting int to double: ",
    Out.dbl (result2 intVar doubleVar), Out.endl]
  let s := cout s [Out.str "Implicit type casting: ", Out.int (sum intVar doubleVar), Out.endl]
  let blockVar : Int := 50
  let s := cout s [Out.str "\nInside block: blockVar = ", Out.int blockVar, Out.endl]
  s

end Basics

/-! ## `storage_classes.cpp` -/

namespace StorageClasses

/-- The objects with static storage duration of `storage_classes.cpp` and its
console output. -/
structure State where
  /-- Global `int globalVar = 100;`, declared `extern` above its definition -/
  globalVar : Int
  /-- Function-local `static int staticVar = 0;` of `staticExample` -/
  staticVar : Int
  /-- Items written to `std::cout` so far -/
  out : List Out

/-- State at program start. -/
def init : State := { globalVar := 100, staticVar := 0, out := [] }

/-- Insertion of a sequence of items into `std::cout`. -/
def cout (s : State) (items : List Out) : State := { s with out := s.out ++ items }

/-- Function `void staticExample()`: the value is printed, then incremented. -/
def staticExample (s : State) : State :=
  let s := cout s [Out.str "Static variable value: ", Out.int s.staticVar, Out.endl]
  { s with staticVar := wrapInt (s.staticVar + 1) }

/-- Body of `registerExample`, returning the final value of the automatic
variable `registerVar` next to the state. -/
def registerExampleBody (s : State) : Int × State :=
  let registerVar : Int := 5
  let s := cout s [Out.str "Register variable value: ", Out.int registerVar, Out.endl]
  let registerVar := wrapInt (registerVar + 1)
  (registerVar, s)

/-- Function `void registerExample()`: its automatic variable ends with the
call. -/
def registerExample (s : State) : State := (registerExampleBody s).2

/-- Function `int main()`. -/
def main (s : State) : State :=
  let autoVar : Int := 10
  let s := cout s [Out.str "Auto variable value: ", Out.int autoVar, Out.endl]
  let s := staticExample s
  let s := staticExample s
  let s := registerExample s
  let s := cout s [Out.str "\nGlobal variable (extern): ", Out.int s.globalVar, Out.endl]
  s

end StorageClasses

/-! ## `type_qualifiers.cpp` -/

namespace TypeQualifiers

/-- The object with static storage duration of `type_qualifiers.cpp` and its
console output. -/
structure State where
  /-- Global `volatile int flag = 0;` -/
  flag : Int
  /-- Items written to `std::cout` so far -/
  out : List Out

/-- State at program start. -/
def init : State := { flag := 0, out := [] }

/-- Insertion of a sequence of items into `std::cout`. -/
def cout (s : State) (items : List Out) : State := { s with out := s.out ++ items }

/-- Function `void demoConst()`. -/
def demoConst (s : State) : State :=
  let a : Int := 10
  cout s [Out.str "Constant value: ", Out.int a, Out.endl]

/-- Function `void demoVolatile()`: each mention of `flag` is a read of, or a
write to, the global. -/
def demoVolatile (s : State) : State :=
  let s := cout s [Out.str "Flag before modification: ", Out.int s.flag, Out.endl]
  let s := { s with flag := 1 }
  cout s [Out.str "Flag after modification: ", Out.int s.flag, Out.endl]

/-- Class `DemoClass`. -/
structure DemoClass where
  /-- Member `mutable int counter;` -/
  counter : Int

/-- Constructor `DemoClass() : counter(0) {}`. -/
def DemoClass.new : DemoClass := { counter := 0 }

/-- Method `void modifyCounter() const`: the receiver is returned with its
`mutable` member updated. -/
def DemoClass.modifyCounter (self : DemoClass) (s : State) : DemoClass × State :=
  let self := { self with counter := wrapInt (self.counter + 1) }
  (self, cout s [Out.str "Counter (modified in const method): ", Out.int self.counter, Out.endl])

/-- Function `int main()`, returning the local `obj` next to the state. -/
def main (s : State) : DemoClass × State :=
  let s := cout s [Out.str "Demonstrating const qualifier:", Out.endl]
  let s := demoConst s
  let s := cout s [Out.str "\nDemonstrating volatile qualifier:", Out.endl]
  let s := demoVolatile s
  let s := cout s [Out.str "\nDemonstrating mutable qualifier:", Out.endl]
  let obj : DemoClass := DemoClass.new
  obj.modifyCounter s

/-- One of the three demonstration routines of the file, `modifyCounter` being
invoked on the object at hand. -/
inductive Call where
  | demoConst
  | demoVolatile
  | modifyCounter
  deriving DecidableEq

/-- Execution of one call on an object and a state. -/
def step (c : Call) (p : DemoClass × State) : DemoClass × State :=
  match c with
  | Call.demoConst => (p.1, demoConst p.2)
  | Call.demoVolatile => (p.1, demoVolatile p.2)
  | Call.modifyCounter => p.1.modifyCounter p.2

/-- Execution of a sequence of calls, first call first. -/
def run (cs : List Call) (p : DemoClass × State) : DemoClass × State :=
  cs.foldl (fun q c => step c q) p

end TypeQualifiers

/-! ## Auxiliary facts -/

/-! ### Integers, repeated calls and the scan of the output -/

theorem wrapInt_of_isInt {x : Int} (h : isInt x) : wrapInt x = x := by
  unfold isInt INT_MIN INT_MAX at h
  unfold wrapInt
  omega

theorem wrapInt_add_wrapInt (x c : Int) : wrapInt (wrapInt x + c) = wrapInt (x + c) := by
  unfold wrapInt
  omega

theorem callN_succ {σ : Type} (f : σ → σ) (n : Nat) (s : σ) :
    callN f (n + 1) s = f (callN f n s) := rfl

/-- Scanning of a concatenation splits at the seam when the first part does
not end with the label itself. -/
theorem printedAfter_append (lbl : String) (xs ys : List Out)
    (h : xs.getLast? ≠ some (Out.str lbl)) :
    printedAfter lbl (xs ++ ys) = printedAfter lbl xs ++ printedAfter lbl ys := by
  induction xs with
  | nil => simp [printedAfter]
  | cons x rest ih =>
    cases rest with
    | nil =>
      cases x with
      | str s =>
        have hs : s ≠ lbl := by
          intro e
          apply h
          simp [e]
        simp [printedAfter, hs]
      | int n => simp [printedAfter]
      | dbl d => simp [printedAfter]
      | chr c => simp [printedAfter]
      | endl => simp [printedAfter]
    | cons y rest2 =>
      have h2 : (y :: rest2).getLast? ≠ some (Out.str lbl) := by
        simpa [List.getLast?_cons_cons] using h
      have ih2 := ih h2
      cases x with
      | str s =>
        by_cases hs : s = lbl
        · simp only [List.cons_append] at ih2 ⊢
          simp [printedAfter, hs, ih2]
        · simp only [List.cons_append] at ih2 ⊢
          simp [printedAfter, hs, ih2]
      | int n => simpa [printedAfter] using ih2
      | dbl d => simpa [printedAfter] using ih2
      | chr c => simpa [printedAfter] using ih2
      | endl => simpa [printedAfter] using ih2

/-! ### Rounding to `double` -/

theorem log2_eq_of_binade {r : ℚ} {e : ℤ} (hr : 0 < r) (h1 : (2 : ℚ) ^ e ≤ r)
    (h2 : r < (2 : ℚ) ^ (e + 1)) : Int.log 2 r = e := by
  have hb : 1 < (2 : ℕ) := by norm_num
  have a : e ≤ Int.log 2 r := by
    apply (Int.zpow_le_iff_le_log hb hr).mp
    simpa using h1
  have b : Int.log 2 r < e + 1 := by
    apply (Int.lt_zpow_iff_log_lt hb hr).mp
    simpa using h2
  omega

theorem roundHalfEven_eq {q : ℚ} {m : ℤ} (h1 : (m : ℚ) - 1 / 2 < q) (h2 : q < m + 1 / 2) :
    roundHalfEven q = m := by
  unfold roundHalfEven
  by_cases hq : (m : ℚ) ≤ q
  · have hf : ⌊q⌋ = m := Int.floor_eq_iff.mpr ⟨hq, by linarith⟩
    simp only [hf]
    rw [if_pos (by linarith)]
  · have hq : q < m := not_le.mp hq
    have hf : ⌊q⌋ = m - 1 :=
      Int.floor_eq_iff.mpr ⟨by push_cast; linarith, by push_cast; linarith⟩
    simp only [hf]
    push_cast
    rw [if_neg (by linarith), if_pos (by linarith)]
    ring

/-- Evaluation of `roundDouble`: a nonzero `q` in the binade `[2^e, 2^(e+1))`,
`e ≥ -1022`, whose quotient by the spacing `u = 2^(e-52)` lies strictly within
one half of the integer `m`, rounds to `m * u`, provided that is finite. -/
theorem roundDouble_eq {q u : ℚ} (e m : ℤ) (hq : q ≠ 0) (he : -1022 ≤ e)
    (h1 : (2 : ℚ) ^ e ≤ |q|) (h2 : |q| < (2 : ℚ) ^ (e + 1)) (hu : u = (2 : ℚ) ^ (e - 52))
    (hm1 : (m : ℚ) - 1 / 2 < q / u) (hm2 : q / u < m + 1 / 2)
    (hlo : -DBL_MAX ≤ m * u) (hhi : m * u ≤ DBL_MAX) :
    roundDouble q = Double.finite (m * u) := by
  have hl : Int.log 2 |q| = e := log2_eq_of_binade (abs_pos.mpr hq) h1 h2
  have hua : ulpAt q = u := by
    unfold ulpAt
    rw [hl, max_eq_left he, hu]
  unfold roundDouble
  rw [if_neg hq]
  simp only [hua, roundHalfEven_eq hm1 hm2]
  rw [if_neg (not_lt.mpr hhi), if_neg (not_lt.mpr hlo)]

theorem isDouble_zero : isDouble 0 := by
  unfold isDouble roundDouble
  rw [if_pos rfl]

theorem isDouble_DBL_MIN : isDouble DBL_MIN := by
  have h := @roundDouble_eq DBL_MIN (2 ^ (-1074 : ℤ)) (-1022) 4503599627370496
    (by norm_num [DBL_MIN]) (by norm_num) (by norm_num [DBL_MIN, abs_of_pos])
    (by norm_num [DBL_MIN, abs_of_pos]) (by norm_num) (by norm_num [DBL_MIN])
    (by norm_num [DBL_MIN]) (by norm_num [DBL_MAX]) (by norm_num [DBL_MAX])
  unfold isDouble
  rw [h]
  norm_num [DBL_MIN]

theorem isDouble_DBL_LOWEST : isDouble DBL_LOWEST := by
  have h := @roundDouble_eq DBL_LOWEST (2 ^ (971 : ℤ)) 1023 (-9007199254740991)
    (by norm_num [DBL_LOWEST, DBL_MAX]) (by norm_num)
    (by norm_num [DBL_LOWEST, DBL_MAX, abs_of_pos])
    (by norm_num [DBL_LOWEST, DBL_MAX, abs_of_pos]) (by norm_num)
    (by norm_num [DBL_LOWEST, DBL_MAX])
    (by norm_num [DBL_LOWEST, DBL_MAX]) (by norm_num [DBL_MAX]) (by norm_num [DBL_MAX])
  unfold isDouble
  rw [h]
  norm_num [DBL_LOWEST, DBL_MAX]

/-! ### The three programs -/

namespace Basics

theorem demoVariableScope_out (s : State) :
    (demoVariableScope s).out = s.out ++ scopeReport 20 (demoVariableScope s).staticVar := rfl

theorem staticVar_callN (N : Nat) :
    (callN demoVariableScope N init).staticVar = wrapInt (30 + 10 * (N : Int)) := by
  induction N with
  | zero => rfl
  | succ k ih =>
    have h : (callN demoVariableScope (k + 1) init).staticVar
        = wrapInt ((callN demoVariableScope k init).staticVar + 10) := rfl
    have e : (30 : Int) + 10 * ((k + 1 : Nat) : Int) = 30 + 10 * (k : Int) + 10 := by
      push_cast
      ring
    rw [h, ih, wrapInt_add_wrapInt, e]

/-- The complete output of `main` of `basics.cpp` on input `userInput`. -/
theorem basics_main_out (userInput : Int) : (main userInput init).out =
    [Out.str "Enter an integer: ",
     Out.str "You entered: ", Out.int userInput, Out.endl,
     Out.str "\nConstants and Literals:\n",
     Out.str "PI = ", Out.dbl PI, Out.endl,
     Out.str "MAX_SIZE = ", Out.int 100, Out.endl,
     Out.str "String literal: ", Out.str "Hello, C++!", Out.endl,
     Out.str "Character literal: ", Out.chr 'A', Out.endl,
     Out.str "\nVariable Scope Demo:\n",
     Out.str "Inside demoVariableScope():\n",
     Out.str "localVar = ", Out.int 20, Out.str "\n",
     Out.str "staticVar (static) = ", Out.int 40, Out.str "\n",
     Out.str "\nNumeric Limits:\n",
     Out.str "Maximum value for int: ", Out.int 2147483647, Out.endl,
     Out.str "Minimum value for int: ", Out.int (-2147483648), Out.endl,
     Out.str "Maximum value for double: ", Out.dbl (Double.finite DBL_MAX), Out.endl,
     Out.str "Minimum value for double: ", Out.dbl (Double.finite DBL_MIN), Out.endl,
     Out.str "\nGlobal Variable (globalVar) = ", Out.int 10, Out.endl,
     Out.str "\nDemonstrating static variables:\n",
     Out.str "Inside demoVariableScope():\n",
     Out.str "localVar = ", Out.int 20, Out.str "\n",
     Out.str "staticVar (static) = ", Out.int 50, Out.str "\n",
     Out.str "\nDemonstrating Type Casting:\n",
     Out.str "Result of type casting int to double: ", Out.dbl (result1 intVar doubleVar), Out.endl,
     Out.str "Result of type casting int to double: ", Out.dbl (result2 intVar doubleVar), Out.endl,
     Out.str "Implicit type casting: ", Out.int (sum intVar doubleVar), Out.endl,
     Out.str "\nInside block: blockVar = ", Out.int 50, Out.endl] := by
  simp only [main, cout, demoVariableScope, scopeReport, init, List.nil_append, List.cons_append, List.append_assoc, MAX_SIZE, INT_MAX, INT_MIN]
  simp [wrapInt]

/-- The final values of the two variables of `basics.cpp`. -/
theorem basics_main_vars (userInput : Int) :
    (main userInput init).staticVar = 50 ∧ (main userInput init).globalVar = 10 := by
  simp [main, cout, demoVariableScope, init, wrapInt]

/-- The value of `doubleVar`: the binary64 number nearest to 3.14. -/
theorem doubleVar_eq :
    doubleVar = Double.finite (7070651414971679 / 2251799813685248) := by
  have h := @roundDouble_eq (314 / 100) (1 / 2251799813685248) 1 7070651414971679
    (by norm_num) (by norm_num) (by norm_num [abs_of_pos]) (by norm_num [abs_of_pos])
    (by norm_num) (by norm_num) (by norm_num) (by norm_num [DBL_MAX]) (by norm_num [DBL_MAX])
  unfold doubleVar doubleLiteral
  rw [h]
  norm_num

/-- The conversion of `intVar` to `double` is exact. -/
theorem staticCastDouble_intVar : staticCastDouble intVar = Double.finite 5 := by
  have h := @roundDouble_eq 5 (1 / 1125899906842624) 2 5629499534213120
    (by norm_num) (by norm_num) (by norm_num [abs_of_pos]) (by norm_num [abs_of_pos])
    (by norm_num) (by norm_num) (by norm_num) (by norm_num [DBL_MAX]) (by norm_num [DBL_MAX])
  unfold staticCastDouble intVar
  norm_num at h ⊢
  exact h

/-- The `double` sum of `intVar` and `doubleVar`. -/
theorem intVar_add_doubleVar :
    (staticCastDouble intVar).add doubleVar
      = Double.finite (572801577606185 / 70368744177664) := by
  have h := @roundDouble_eq (5 + 7070651414971679 / 2251799813685248)
    (1 / 562949953421312) 3 4582412620849480
    (by norm_num) (by norm_num) (by norm_num [abs_of_pos]) (by norm_num [abs_of_pos])
    (by norm_num) (by norm_num) (by norm_num) (by norm_num [DBL_MAX]) (by norm_num [DBL_MAX])
  rw [staticCastDouble_intVar, doubleVar_eq]
  show roundDouble _ = _
  rw [h]
  norm_num

end Basics

namespace StorageClasses

theorem staticExample_out (s : State) :
    (staticExample s).out
      = s.out ++ [Out.str "Static variable value: ", Out.int s.staticVar, Out.endl] := rfl

theorem staticExample_callN (N : Nat) :
    (callN staticExample N init).staticVar = wrapInt (N : Int) := by
  induction N with
  | zero => rfl
  | succ k ih =>
    have h : (callN staticExample (k + 1) init).staticVar
        = wrapInt ((callN staticExample k init).staticVar + 1) := rfl
    rw [h, ih, wrapInt_add_wrapInt]
    push_cast
    rfl

end StorageClasses

namespace TypeQualifiers

theorem run_snoc (cs : List Call) (c : Call) (p : DemoClass × State) :
    run (cs ++ [c]) p = step c (run cs p) := by
  simp [run, List.foldl_append]

/-- Every call appends to the output a block that ends with `endl`, and what
`demoConst` appends is the line with 10. -/
theorem step_out (c : Call) (p : DemoClass × State) :
    ∃ e, (step c p).2.out = p.2.out ++ e ∧ e.getLast? = some Out.endl ∧
      printedAfter "Constant value: " e
        = if c = Call.demoConst then [Out.int 10] else [] := by
  cases c with
  | demoConst =>
    exact ⟨[Out.str "Constant value: ", Out.int 10, Out.endl], rfl, rfl,
      by simp [printedAfter]⟩
  | demoVolatile =>
    exact ⟨[Out.str "Flag before modification: ", Out.int p.2.flag, Out.endl,
      Out.str "Flag after modification: ", Out.int 1, Out.endl],
      by simp [step, demoVolatile, cout], rfl, by simp [printedAfter]⟩
  | modifyCounter =>
    exact ⟨[Out.str "Counter (modified in const method): ",
      Out.int (wrapInt (p.1.counter + 1)), Out.endl], rfl, rfl, by simp [printedAfter]⟩

theorem run_out (cs : List Call) (obj : DemoClass) (f : Int) :
    ∃ e, (run cs (obj, { flag := f, out := [] })).2.out = e ∧
      e.getLast? ≠ some (Out.str "Constant value: ") ∧
      printedAfter "Constant value: " e
        = List.replicate (cs.count Call.demoConst) (Out.int 10) := by
  induction cs using List.reverseRecOn with
  | nil => exact ⟨[], rfl, by simp, by simp [printedAfter]⟩
  | append_singleton cs c ih =>
    obtain ⟨e, he, hl, hp⟩ := ih
    obtain ⟨r, hr, hrl, hrp⟩ := step_out c (run cs (obj, { flag := f, out := [] }))
    refine ⟨e ++ r, ?_, ?_, ?_⟩
    · rw [run_snoc, hr, he]
    · have hne : r ≠ [] := by
        intro h0
        simp [h0] at hrl
      rw [List.getLast?_append_of_ne_nil _ hne, hrl]
      simp
    · rw [printedAfter_append _ _ _ hl, hp, hrp, List.count_append]
      by_cases hc : c = Call.demoConst
      · subst hc
        simp [List.replicate_succ']
      · have : List.count Call.demoConst [c] = 0 := by
          simp [List.count_cons, hc]
        simp [hc, this]

theorem counter_callN (s : State) (N : Nat) :
    (callN (step Call.modifyCounter) N (DemoClass.new, s)).1.counter = wrapInt (N : Int) := by
  induction N with
  | zero => rfl
  | succ k ih =>
    have h : (callN (step Call.modifyCounter) (k + 1) (DemoClass.new, s)).1.counter
        = wrapInt ((callN (step Call.modifyCounter) k (DemoClass.new, s)).1.counter + 1) := rfl
    rw [h, ih, wrapInt_add_wrapInt]
    push_cast
    rfl

theorem qualifiers_main_out : (main init).2.out =
    [Out.str "Demonstrating const qualifier:", Out.endl,
     Out.str "Constant value: ", Out.int 10, Out.endl,
     Out.str "\nDemonstrating volatile qualifier:", Out.endl,
     Out.str "Flag before modification: ", Out.int 0, Out.endl,
     Out.str "Flag after modification: ", Out.int 1, Out.endl,
     Out.str "\nDemonstrating mutable qualifier:", Out.endl,
     Out.str "Counter (modified in const method): ", Out.int 1, Out.endl] := by
  simp [main, cout, demoConst, demoVolatile, DemoClass.modifyCounter, DemoClass.new, init,
    wrapInt]

end TypeQualifiers

/-! ## Claims -/

/-! ### `basics.cpp` -/

namespace Basics

/-- C1 (as stated, refuted): after 214748362 calls of `demoVariableScope` the
static `int` cannot hold `30 + 10 * 214748362 = 2147483650`, which lies above
`INT_MAX`; the stored value is `-2147483646`. -/
theorem staticVar_overflows :
    (callN demoVariableScope 214748362 init).staticVar = -2147483646 ∧
      (callN demoVariableScope 214748362 init).staticVar ≠ 30 + 10 * ((214748362 : Nat) : Int) := by
  rw [staticVar_callN]
  unfold wrapInt
  constructor <;> norm_num

/-- C1 (amended): for every `N ≤ 214748361`, after `N` calls of
`demoVariableScope` from the initial state `staticVar = 30 + 10 * N`; when
moreover `N ≥ 1` the `N`-th call appends its three lines with
`staticVar (static) = 30 + 10 * N`; and the two calls made by `main` print 40
and then 50, whatever the input. -/
theorem staticVar_after_calls (N : Nat) (userInput : Int) (hN : N ≤ 214748361) :
    (callN demoVariableScope N init).staticVar = 30 + 10 * (N : Int) ∧
      (1 ≤ N → (callN demoVariableScope N init).out
          = (callN demoVariableScope (N - 1) init).out ++ scopeReport 20 (30 + 10 * (N : Int))) ∧
      printedAfter "staticVar (static) = " (main userInput init).out
          = [Out.int 40, Out.int 50] := by
  have hv : (callN demoVariableScope N init).staticVar = 30 + 10 * (N : Int) := by
    rw [staticVar_callN]
    apply wrapInt_of_isInt
    unfold isInt INT_MIN INT_MAX
    omega
  refine ⟨hv, ?_, ?_⟩
  · intro h1
    obtain ⟨k, rfl⟩ : ∃ k, N = k + 1 := ⟨N - 1, by omega⟩
    rw [callN_succ] at hv
    rw [Nat.add_sub_cancel, callN_succ, demoVariableScope_out, hv]
  · rw [basics_main_out]
    simp [printedAfter]

/-- C1 (amended), at `N = 2`, the number of calls made by `main`, and input 7:
the second call leaves 50 in `staticVar` and prints it. -/
theorem staticVar_after_calls_witness :
    (2 : Nat) ≤ 214748361 ∧
      (callN demoVariableScope 2 init).staticVar = 30 + 10 * ((2 : Nat) : Int) ∧
      (callN demoVariableScope 2 init).out
          = (callN demoVariableScope (2 - 1) init).out
            ++ scopeReport 20 (30 + 10 * ((2 : Nat) : Int)) ∧
      printedAfter "staticVar (static) = " (main 7 init).out = [Out.int 40, Out.int 50] :=
  have h := staticVar_after_calls 2 7 (by decide)
  ⟨by decide, h.1, h.2.1 (by decide), h.2.2⟩

/-- C5: the implicit conversion in `int sum = intVar + doubleVar` stores 8,
which is the real sum of 5 and 3.14 truncated toward zero and also the integer
part of `result1`: `result1` is the finite double `572801577606185 / 2^46`
(8.14 to sixteen digits) and `result1 - 1 < sum ≤ result1`; `main` prints 8
after "Implicit type casting: ". -/
theorem sum_is_truncated_result1 (userInput : Int) :
    sum intVar doubleVar = 8 ∧
      truncQ ((5 : ℚ) + 314 / 100) = 8 ∧
      sum intVar doubleVar = truncQ (572801577606185 / 70368744177664) ∧
      result1 intVar doubleVar = Double.finite (572801577606185 / 70368744177664) ∧
      (572801577606185 / 70368744177664 : ℚ) - 1 < ((sum intVar doubleVar : Int) : ℚ) ∧
      ((sum intVar doubleVar : Int) : ℚ) ≤ 572801577606185 / 70368744177664 ∧
      printedAfter "Implicit type casting: " (main userInput init).out = [Out.int 8] := by
  have ht : truncQ (572801577606185 / 70368744177664) = 8 := by
    unfold truncQ
    rw [if_pos (by norm_num)]
    exact Int.floor_eq_iff.mpr ⟨by norm_num, by norm_num⟩
  have hs : sum intVar doubleVar = 8 := by
    unfold sum promoteDouble
    rw [intVar_add_doubleVar]
    show (if isInt (truncQ _) then truncQ _ else INT_MIN) = 8
    rw [ht, if_pos (by decide)]
  refine ⟨hs, ?_, ?_, intVar_add_doubleVar, ?_, ?_, ?_⟩
  · unfold truncQ
    rw [if_pos (by norm_num)]
    exact Int.floor_eq_iff.mpr ⟨by norm_num, by norm_num⟩
  · rw [hs, ht]
  · rw [hs]
    norm_num
  · rw [hs]
    norm_num
  · rw [basics_main_out, hs]
    simp [printedAfter]

/-- C6: on every input `n` read successfully the output of `main` starts with
the prompt and the label "You entered: ", has `n` as its third item, and
everything else in it, before and after, is the same as on any other input
`m`; so is the final value of every variable. -/
theorem output_differs_only_in_echo (n m : Int) :
    (main n init).out.take 2 = [Out.str "Enter an integer: ", Out.str "You entered: "] ∧
      (main n init).out[2]? = some (Out.int n) ∧
      printedAfter "You entered: " (main n init).out = [Out.int n] ∧
      (main n init).out.take 2 = (main m init).out.take 2 ∧
      (main n init).out.drop 3 = (main m init).out.drop 3 ∧
      (main n init).out.length = (main m init).out.length ∧
      (main n init).staticVar = (main m init).staticVar ∧
      (main n init).globalVar = (main m init).globalVar := by
  refine ⟨?_, ?_, ?_, ?_, ?_, ?_, ?_, ?_⟩
  · rw [basics_main_out]
    rfl
  · rw [basics_main_out]
    rfl
  · rw [basics_main_out]
    simp [printedAfter]
  · rw [basics_main_out, basics_main_out]
    rfl
  · rw [basics_main_out, basics_main_out]
    rfl
  · rw [basics_main_out, basics_main_out]
    rfl
  · rw [(basics_main_vars n).1, (basics_main_vars m).1]
  · rw [(basics_main_vars n).2, (basics_main_vars m).2]

/-- C7: the C-style cast and the `static_cast` give the same `result1` and
`result2` for every `int` value of `intVar` and every `doubleVar`; for
`intVar = 5` and `doubleVar = 3.14` both are the double `572801577606185 / 2^46`,
and `main` prints that value twice. -/
theorem result1_eq_result2 (i : Int) (d : Double) (userInput : Int) :
    result1 i d = result2 i d ∧
      result1 intVar doubleVar = Double.finite (572801577606185 / 70368744177664) ∧
      result2 intVar doubleVar = Double.finite (572801577606185 / 70368744177664) ∧
      printedAfter "Result of type casting int to double: " (main userInput init).out
        = [Out.dbl (Double.finite (572801577606185 / 70368744177664)),
           Out.dbl (Double.finite (572801577606185 / 70368744177664))] := by
  have h1 : result1 intVar doubleVar = Double.finite (572801577606185 / 70368744177664) :=
    intVar_add_doubleVar
  have h2 : result2 intVar doubleVar = Double.finite (572801577606185 / 70368744177664) :=
    intVar_add_doubleVar
  refine ⟨rfl, h1, h2, ?_⟩
  rw [basics_main_out, h1, h2]
  simp [printedAfter]

/-- C10 (the code at the place of divergence): under "Minimum value for
double: " `main` prints `numeric_limits<double>::min()`, which is `2^(-1022)`:
a double above the doubles 0 and `lowest() = -max()`, so not the least value of
the type.  Under "Minimum value for int: " it prints `INT_MIN`, which is below
or equal to every `int`, to 0 and to `-INT_MAX`. -/
theorem double_min_is_not_least (userInput : Int) :
    printedAfter "Minimum value for double: " (main userInput init).out
        = [Out.dbl (Double.finite DBL_MIN)] ∧
      printedAfter "Maximum value for double: " (main userInput init).out
        = [Out.dbl (Double.finite DBL_MAX)] ∧
      isDouble DBL_MIN ∧ isDouble 0 ∧ isDouble (-DBL_MAX) ∧
      ¬ DBL_MIN ≤ 0 ∧ ¬ DBL_MIN ≤ -DBL_MAX ∧
      printedAfter "Minimum value for int: " (main userInput init).out = [Out.int INT_MIN] ∧
      printedAfter "Maximum value for int: " (main userInput init).out = [Out.int INT_MAX] ∧
      (∀ x : Int, INT_MIN ≤ wrapInt x) ∧ INT_MIN ≤ 0 ∧ INT_MIN ≤ -INT_MAX := by
  refine ⟨?_, ?_, isDouble_DBL_MIN, isDouble_zero, isDouble_DBL_LOWEST, ?_, ?_, ?_, ?_, ?_,
    by decide, by decide⟩
  · rw [basics_main_out]
    simp [printedAfter]
  · rw [basics_main_out]
    simp [printedAfter]
  · norm_num [DBL_MIN]
  · norm_num [DBL_MIN, DBL_MAX]
  · rw [basics_main_out]
    simp [printedAfter, INT_MIN]
  · rw [basics_main_out]
    simp [printedAfter, INT_MAX]
  · intro x
    unfold INT_MIN wrapInt
    omega

end Basics

/-! ### `storage_classes.cpp` -/

namespace StorageClasses

/-- C2 (as stated, refuted): after 2147483648 calls of `staticExample` the
static `int` cannot hold 2147483648, which lies above `INT_MAX`; the stored
value is `-2147483648`, and it is the value the next call prints. -/
theorem staticExample_overflows :
    (callN staticExample 2147483648 init).staticVar = -2147483648 ∧
      (callN staticExample 2147483648 init).staticVar ≠ ((2147483648 : Nat) : Int) := by
  rw [staticExample_callN]
  unfold wrapInt
  constructor <;> norm_num

/-- C2 (amended): for every `N ≤ 2147483647`, after `N` calls of
`staticExample` from the initial state `staticVar = N`, and call number
`N + 1` prints `N` (the value before its own increment); the two calls made by
`main` print 0 and then 1. -/
theorem staticExample_after_calls (N : Nat) (hN : N ≤ 2147483647) :
    (callN staticExample N init).staticVar = (N : Int) ∧
      (callN staticExample (N + 1) init).out = (callN staticExample N init).out
          ++ [Out.str "Static variable value: ", Out.int (N : Int), Out.endl] ∧
      printedAfter "Static variable value: " (main init).out = [Out.int 0, Out.int 1] := by
  have hv : (callN staticExample N init).staticVar = (N : Int) := by
    rw [staticExample_callN]
    apply wrapInt_of_isInt
    unfold isInt INT_MIN INT_MAX
    omega
  refine ⟨hv, ?_, ?_⟩
  · rw [callN_succ, staticExample_out, hv]
  · simp [main, cout, staticExample, registerExample, registerExampleBody, init, wrapInt,
      printedAfter]

/-- C2 (amended), at `N = 2`, the number of calls made by `main`: two calls
leave 2 in `staticVar`, which a third call would print. -/
theorem staticExample_after_calls_witness :
    (2 : Nat) ≤ 2147483647 ∧
      (callN staticExample 2 init).staticVar = ((2 : Nat) : Int) ∧
      (callN staticExample (2 + 1) init).out = (callN staticExample 2 init).out
          ++ [Out.str "Static variable value: ", Out.int ((2 : Nat) : Int), Out.endl] ∧
      printedAfter "Static variable value: " (main init).out = [Out.int 0, Out.int 1] :=
  ⟨by decide, staticExample_after_calls 2 (by decide)⟩

/-- C8: in every state, hence at every position `k + 1` in a series of calls,
`registerExample` prints 5; its local `registerVar` reaches 6 and ends with the
call, and neither `staticVar` of `staticExample` nor `globalVar` changes, also
over any number of calls. -/
theorem registerExample_prints_five (k : Nat) (s : State) :
    (registerExample s).out
        = s.out ++ [Out.str "Register variable value: ", Out.int 5, Out.endl] ∧
      (registerExampleBody s).1 = 6 ∧
      (registerExample s).staticVar = s.staticVar ∧
      (registerExample s).globalVar = s.globalVar ∧
      (callN registerExample (k + 1) s).out = (callN registerExample k s).out
        ++ [Out.str "Register variable value: ", Out.int 5, Out.endl] ∧
      (callN registerExample k s).staticVar = s.staticVar ∧
      (callN registerExample k s).globalVar = s.globalVar ∧
      printedAfter "Register variable value: " (main init).out = [Out.int 5] := by
  refine ⟨rfl, rfl, rfl, rfl, rfl, ?_, ?_, ?_⟩
  · induction k with
    | zero => rfl
    | succ j ih => exact ih
  · induction k with
    | zero => rfl
    | succ j ih => exact ih
  · simp [main, cout, staticExample, registerExample, registerExampleBody, init, wrapInt,
      printedAfter]

end StorageClasses

/-! ### `type_qualifiers.cpp` -/

namespace TypeQualifiers

/-- C3 (as stated, refuted): on an object whose counter is `INT_MAX` one call
of `modifyCounter` cannot leave `INT_MAX + 1` in the `int` member; it leaves
`INT_MIN`. -/
theorem modifyCounter_overflows :
    ((DemoClass.mk 2147483647).modifyCounter init).1.counter = -2147483648 ∧
      ((DemoClass.mk 2147483647).modifyCounter init).1.counter ≠ 2147483647 + 1 := by
  constructor <;> decide

/-- C3 (amended): for every object whose counter `c` is an `int` below
`INT_MAX`, one call of the const method `modifyCounter` leaves `counter = c + 1`,
prints `c + 1` and leaves `flag` alone; for every `N ≤ 2147483647`, after `N`
calls on a freshly constructed object the counter equals `N`, the `N`-th call
(`N ≥ 1`) having printed `N`; the single call in `main` prints 1. -/
theorem modifyCounter_increments (obj : DemoClass) (s : State) (N : Nat)
    (hlo : INT_MIN ≤ obj.counter) (hhi : obj.counter < INT_MAX) (hN : N ≤ 2147483647) :
    (obj.modifyCounter s).1.counter = obj.counter + 1 ∧
      (obj.modifyCounter s).2.out = s.out
        ++ [Out.str "Counter (modified in const method): ", Out.int (obj.counter + 1),
            Out.endl] ∧
      (obj.modifyCounter s).2.flag = s.flag ∧
      (callN (step Call.modifyCounter) N (DemoClass.new, s)).1.counter = (N : Int) ∧
      (1 ≤ N → (callN (step Call.modifyCounter) N (DemoClass.new, s)).2.out
        = (callN (step Call.modifyCounter) (N - 1) (DemoClass.new, s)).2.out
          ++ [Out.str "Counter (modified in const method): ", Out.int (N : Int), Out.endl]) ∧
      printedAfter "Counter (modified in const method): " (main init).2.out = [Out.int 1] := by
  have hw : wrapInt (obj.counter + 1) = obj.counter + 1 := by
    apply wrapInt_of_isInt
    unfold isInt
    unfold INT_MIN at hlo ⊢
    unfold INT_MAX at hhi ⊢
    omega
  have hv : (callN (step Call.modifyCounter) N (DemoClass.new, s)).1.counter = (N : Int) := by
    rw [counter_callN]
    apply wrapInt_of_isInt
    unfold isInt INT_MIN INT_MAX
    omega
  refine ⟨hw, ?_, rfl, hv, ?_, ?_⟩
  · show s.out ++ [_, Out.int (wrapInt (obj.counter + 1)), _] = _
    rw [hw]
  · intro h1
    obtain ⟨k, rfl⟩ : ∃ k, N = k + 1 := ⟨N - 1, by omega⟩
    rw [Nat.add_sub_cancel]
    have e : (callN (step Call.modifyCounter) (k + 1) (DemoClass.new, s)).2.out
        = (callN (step Call.modifyCounter) k (DemoClass.new, s)).2.out
          ++ [Out.str "Counter (modified in const method): ",
              Out.int (callN (step Call.modifyCounter) (k + 1) (DemoClass.new, s)).1.counter,
              Out.endl] := rfl
    rw [e, hv]
  · rw [qualifiers_main_out]
    simp [printedAfter]

/-- C3 (amended), at the object and the state of `main`, with one call: the
fresh object ends with `counter = 1`, and 1 is printed. -/
theorem modifyCounter_increments_witness :
    INT_MIN ≤ DemoClass.new.counter ∧ DemoClass.new.counter < INT_MAX ∧
      (1 : Nat) ≤ 2147483647 ∧
      (DemoClass.new.modifyCounter init).1.counter = DemoClass.new.counter + 1 ∧
      (DemoClass.new.modifyCounter init).2.out = init.out
        ++ [Out.str "Counter (modified in const method): ",
            Out.int (DemoClass.new.counter + 1), Out.endl] ∧
      (DemoClass.new.modifyCounter init).2.flag = init.flag ∧
      (callN (step Call.modifyCounter) 1 (DemoClass.new, init)).1.counter = ((1 : Nat) : Int) ∧
      (callN (step Call.modifyCounter) 1 (DemoClass.new, init)).2.out
        = (callN (step Call.modifyCounter) (1 - 1) (DemoClass.new, init)).2.out
          ++ [Out.str "Counter (modified in const method): ", Out.int ((1 : Nat) : Int),
              Out.endl] ∧
      printedAfter "Counter (modified in const method): " (main init).2.out = [Out.int 1] :=
  have h := modifyCounter_increments DemoClass.new init 1 (by decide) (by decide) (by decide)
  ⟨by decide, by decide, by decide, h.1, h.2.1, h.2.2.1, h.2.2.2.1, h.2.2.2.2.1 (by decide),
    h.2.2.2.2.2⟩

/-- C4: `demoConst` prints 10 for `a` in every state, so also after any
sequence `cs` of earlier calls on any object and from any value of `flag`; and
over a whole sequence of calls the values printed after "Constant value: " are
10, once for each `demoConst` in it. -/
theorem demoConst_prints_ten (cs : List Call) (obj : DemoClass) (s : State) (f : Int) :
    (demoConst s).out = s.out ++ [Out.str "Constant value: ", Out.int 10, Out.endl] ∧
      (demoConst s).flag = s.flag ∧
      (step Call.demoConst (run cs (obj, s))).2.out
        = (run cs (obj, s)).2.out ++ [Out.str "Constant value: ", Out.int 10, Out.endl] ∧
      printedAfter "Constant value: " (run cs (obj, { flag := f, out := [] })).2.out
        = List.replicate (cs.count Call.demoConst) (Out.int 10) ∧
      printedAfter "Constant value: " (main init).2.out = [Out.int 10] := by
  refine ⟨rfl, rfl, rfl, ?_, ?_⟩
  · obtain ⟨e, he, _, hp⟩ := run_out cs obj f
    rw [he, hp]
  · rw [qualifiers_main_out]
    simp [printedAfter]

/-- C9: for every value `f` of `flag` on entry, `demoVolatile` prints `f` as
the value before the modification and 1 as the value after it, and leaves
`flag = 1`; a second call leaves the same `flag` as the first; the call in
`main` prints 0 and then 1. -/
theorem demoVolatile_sets_flag (s : State) :
    (demoVolatile s).out = s.out
        ++ [Out.str "Flag before modification: ", Out.int s.flag, Out.endl,
            Out.str "Flag after modification: ", Out.int 1, Out.endl] ∧
      (demoVolatile s).flag = 1 ∧
      (demoVolatile (demoVolatile s)).flag = (demoVolatile s).flag ∧
      printedAfter "Flag before modification: " (main init).2.out = [Out.int 0] ∧
      printedAfter "Flag after modification: " (main init).2.out = [Out.int 1] := by
  refine ⟨?_, rfl, rfl, ?_, ?_⟩
  · simp [demoVolatile, cout]
  · rw [qualifiers_main_out]
    simp [printedAfter]
  · rw [qualifiers_main_out]
    simp [printedAfter]

end TypeQualifiers
